import Mathlib

/-!
The transfer engine of picadastra (`src/main.go`)

A shallow embedding of `main.go` (package `main` of fawick/picadastra) and the
properties of its transfer-decision logic. The older copy of the program,
`src/cmd/picadastra/main.go`, differs in its walk function, which is embedded
too.

The Go program talks to the operating system; the embedding makes that explicit:

* the file system is a map from path names to nodes (`FS`); two different
  strings name two different entries (no symbolic or hard links, no aliasing
  between relative and absolute names);
* `os.Stat`, `os.Open`, `os.Create`, `os.MkdirAll`, `io.Copy`, `os.Chtimes` are
  functions on that map (`osStat`, `osOpen`, ...);
* `path/filepath` (`Base`, `Dir`, `Clean`, `Join`) and the two `strings`
  functions the program uses are written out for Unix paths;
* what the program delegates to other software is a parameter (`Env`): the EXIF
  decoder, `time.Format`, the `rsync` binary, the wall clock, the home
  directory and the sequence of entries `filepath.Walk` visits.

A method with a pointer receiver `tt *TransferTask` takes the task and the
world and returns the error (`none` is Go's `nil`), the task and the world.
The counters are Go `int`s; they start at 0 and grow by one per file, so they
are integers without wrap-around here.
-/

namespace Picadastra

/-! ## Files and the file system -/

/-- The bytes of a file. -/
abbrev Bytes := List Nat

/-- A `time.Time`, as an instant on some integer scale. -/
abbrev Time := Int

/-- What a path name can denote: a regular file, a directory (with the size
and time `stat` reports for it), or an entry whose `stat` fails with an error
other than "does not exist" (for instance permission denied). -/
inductive Node where
  | file (content : Bytes) (modTime : Time)
  | dir (size : Int) (modTime : Time)
  | noAccess
  deriving DecidableEq

/-- The file system: what each path name denotes, if anything. -/
abbrev FS := String → Option Node

/-- The file system with `p` now denoting `n`. -/
def FS.set (fs : FS) (p : String) (n : Node) : FS :=
  fun q => if q = p then some n else fs q

/-- The part of `os.FileInfo` the program reads. -/
structure FileInfo where
  name : String
  size : Int
  modTime : Time
  isDir : Bool
  deriving DecidableEq

/-- An error of an `os` call: its text (what `%v` prints) and whether
`os.IsNotExist` holds of it. -/
structure PathError where
  msg : String
  notExist : Bool
  deriving DecidableEq

/-! ## `strings` and `path/filepath` -/

/-- `strings.ToLower`, on the ASCII letters. (Go also lowers letters outside
ASCII; none of them becomes a character of `.jpg`, `*.jpeg`, `.mov`, `.mp4`.) -/
def stringsToLower (s : String) : String :=
  String.mk (s.data.map Char.toLower)

/-- `strings.HasSuffix`. -/
def stringsHasSuffix (s suffix : String) : Bool :=
  suffix.data.isSuffixOf s.data

/-- The elements of a path: the pieces between slashes (empty pieces included). -/
def splitSlash : List Char → List (List Char)
  | [] => [[]]
  | c :: cs =>
    match splitSlash cs with
    | [] => if c = '/' then [[], []] else [[c]]
    | e :: es => if c = '/' then [] :: e :: es else (c :: e) :: es

/-- One step of `filepath.Clean`: `stack` holds the elements kept so far, the
last one first. -/
def cleanStep (rooted : Bool) (stack : List (List Char)) (e : List Char) :
    List (List Char) :=
  if e = [] ∨ e = ['.'] then stack
  else if e = ['.', '.'] then
    match stack with
    | [] => if rooted then [] else [e]
    | top :: rest => if top = ['.', '.'] then e :: top :: rest else rest
  else e :: stack

/-- `filepath.Clean` on Unix. -/
def filepathClean (path : String) : String :=
  let rooted := path.data.head? = some '/'
  let elems := ((splitSlash path.data).foldl (cleanStep rooted) []).reverse
  let body := String.intercalate "/" (elems.map String.mk)
  if rooted then "/" ++ body
  else if body = "" then "." else body

/-- `filepath.Join` on Unix: the elements from the first non-empty one on,
separated by slashes, cleaned; the empty string when all are empty. -/
def filepathJoin (elem : List String) : String :=
  match elem.dropWhile (fun e => e = "") with
  | [] => ""
  | es => filepathClean (String.intercalate "/" es)

/-- `filepath.Base` on Unix. -/
def filepathBase (path : String) : String :=
  if path = "" then "."
  else
    let stripped := path.data.reverse.dropWhile (fun c => c = '/')
    let last := (stripped.takeWhile (fun c => c ≠ '/')).reverse
    if last = [] then "/" else String.mk last

/-- `filepath.Dir` on Unix: everything up to the last slash, cleaned. -/
def filepathDir (path : String) : String :=
  filepathClean (String.mk (path.data.reverse.dropWhile (fun c => c ≠ '/')).reverse)

/-- The successive parents `os.MkdirAll` recurses into, nearest first, read off
the reversed path: trailing slashes are skipped, then the last element, and
what is left before the slash is the parent (unless nothing is left).
`scanning = false` while trailing slashes are skipped. -/
def mkdirParentsRev : Bool → List Char → List (List Char)
  | _, [] => []
  | false, c :: t => if c = '/' then mkdirParentsRev false t else mkdirParentsRev true t
  | true, c :: t =>
    if c = '/' then (if t = [] then [] else t :: mkdirParentsRev false t)
    else mkdirParentsRev true t

/-- The paths `os.MkdirAll path` looks at: `path` itself, then its parents. -/
def mkdirAllChain (path : String) : List String :=
  path :: (mkdirParentsRev false path.data.reverse).map (fun r => String.mk r.reverse)

/-! ## The environment -/

/-- The decoded EXIF data, as far as the program uses it: the result of
`x.DateTime()`. -/
structure Exif where
  dateTime : Except String Time

/-- One call `filepath.Walk` makes to its walk function. -/
structure WalkEntry where
  path : String
  info : FileInfo
  err : Option String
  deriving DecidableEq

/-- What the program delegates to its surroundings.

* `exifDecode` is `exif.Decode` on the bytes of a file;
* `timeFormat tm layout` is `tm.Format(layout)`;
* `rsyncPath` is the result of `exec.LookPath("rsync")`, `none` when it fails;
* `rsyncFails fs from to` says how `rsync -tP --inplace from to` ends:
  `none` for exit status 0, `some (msg, left)` for a failure with error text
  `msg` that leaves the destination as `left` says (`none`: not touched);
* `now` is the time a file written by this process gets;
* `dirSize` is the size `stat` reports for a fresh directory;
* `homeDir` is `user.Current().HomeDir`;
* `walk fs root` is the sequence of calls `filepath.Walk root` makes. -/
structure Env where
  exifDecode : Bytes → Except String Exif
  timeFormat : Time → String → String
  rsyncPath : Option String
  rsyncFails : FS → String → String → Option (String × Option Node)
  now : Time
  dirSize : Int
  homeDir : String
  walk : FS → String → List WalkEntry

/-! ## The program state -/

/-- The `statistics` field of `TransferTask`. -/
structure Statistics where
  created : Int
  overwritten : Int
  skipped : Int
  merged : Int
  deriving DecidableEq

/-- The `TransferTask` struct. -/
structure TransferTask where
  srcDir : String
  dstDir : String
  dateFormat : String
  verbose : Bool
  superVerbose : Bool
  force : Bool
  skipVideos : Bool
  statistics : Statistics
  deriving DecidableEq

/-- The `CameraItem` struct. -/
structure CameraItem where
  Path : String
  ModTime : Time
  Size : Int
  deriving DecidableEq

/-- A call of one of the three functions that do the transfer work. -/
inductive Call where
  | importItem (ci : CameraItem)
  | cp (src dst : String)
  | merge (src dst : String)
  deriving DecidableEq

/-- Everything outside the task: the file system, what was written to
standard output and standard error, and (a ghost field, not in the Go code)
the calls of `importItem`, `cp` and `merge` made so far, each recorded on
entry. -/
structure World where
  fs : FS
  out : List String
  errOut : List String
  calls : List Call

/-- A write to standard output. -/
def World.print (w : World) (line : String) : World :=
  { w with out := w.out ++ [line] }

/-- A write to standard error. -/
def World.eprint (w : World) (line : String) : World :=
  { w with errOut := w.errOut ++ [line] }

/-- Record the entry into a function (ghost). -/
def World.record (w : World) (c : Call) : World :=
  { w with calls := w.calls ++ [c] }

/-- The world with another file system. -/
def World.withFS (w : World) (fs : FS) : World :=
  { w with fs := fs }

/-- The statement `tt.statistics.created++`. -/
def TransferTask.incCreated (tt : TransferTask) : TransferTask :=
  { tt with statistics := { tt.statistics with created := tt.statistics.created + 1 } }

/-- The statement `tt.statistics.overwritten++`. -/
def TransferTask.incOverwritten (tt : TransferTask) : TransferTask :=
  { tt with statistics := { tt.statistics with overwritten := tt.statistics.overwritten + 1 } }

/-- The statement `tt.statistics.skipped++`. -/
def TransferTask.incSkipped (tt : TransferTask) : TransferTask :=
  { tt with statistics := { tt.statistics with skipped := tt.statistics.skipped + 1 } }

/-- The statement `tt.statistics.merged++`. -/
def TransferTask.incMerged (tt : TransferTask) : TransferTask :=
  { tt with statistics := { tt.statistics with merged := tt.statistics.merged + 1 } }

/-! ## The `os` and `io` calls -/

/-- The call `os.Stat(name)`. -/
def osStat (fs : FS) (name : String) : Except PathError FileInfo :=
  match fs name with
  | none => .error ⟨"stat " ++ name ++ ": no such file or directory", true⟩
  | some .noAccess => .error ⟨"stat " ++ name ++ ": permission denied", false⟩
  | some (.file c m) => .ok ⟨filepathBase name, c.length, m, false⟩
  | some (.dir sz m) => .ok ⟨filepathBase name, sz, m, true⟩

/-- The call `os.Open(name)`: the open file is identified by its name. -/
def osOpen (fs : FS) (name : String) : Except String String :=
  match fs name with
  | none => .error ("open " ++ name ++ ": no such file or directory")
  | some .noAccess => .error ("open " ++ name ++ ": permission denied")
  | some _ => .ok name

/-- Reading an open file to its end; a directory cannot be read. -/
def readAll (fs : FS) (handle : String) : Except String Bytes :=
  match fs handle with
  | some (.file c _) => .ok c
  | some (.dir _ _) => .error ("read " ++ handle ++ ": is a directory")
  | _ => .error ("read " ++ handle ++ ": bad file descriptor")

/-- The call `os.Mkdir(name, perm)`: succeeds when the name is free. (The model
keeps no link between an entry and its parent directory.) -/
def osMkdir (env : Env) (fs : FS) (name : String) : Except String FS :=
  match fs name with
  | none => .ok (fs.set name (.dir env.dirSize env.now))
  | some _ => .error ("mkdir " ++ name ++ ": file exists")

/-- The body of `os.MkdirAll` along the chain of a path and its parents: a path
that is a directory ends the recursion, one that is another kind of entry is an
error, otherwise the parents are made first and then the path itself. The file
system is returned also on failure, with the directories made until then. -/
def mkdirAllAux (env : Env) : List String → FS → Option String × FS
  | [], fs => (none, fs)
  | p :: parents, fs =>
    match osStat fs p with
    | .ok dir =>
      if dir.isDir then (none, fs) else (some ("mkdir " ++ p ++ ": not a directory"), fs)
    | .error _ =>
      match mkdirAllAux env parents fs with
      | (some e, fs1) => (some e, fs1)
      | (none, fs1) =>
        match osMkdir env fs1 p with
        | .ok fs2 => (none, fs2)
        | .error e =>
          match osStat fs1 p with
          | .ok dir => if dir.isDir then (none, fs1) else (some e, fs1)
          | .error _ => (some e, fs1)

/-- The call `os.MkdirAll(path, 0755)`. -/
def osMkdirAll (env : Env) (fs : FS) (path : String) : Option String × FS :=
  mkdirAllAux env (mkdirAllChain path) fs

/-- The call `os.Create(name)`: the file is created or truncated. -/
def osCreate (env : Env) (fs : FS) (name : String) : Except String FS :=
  match fs name with
  | some (.dir _ _) => .error ("open " ++ name ++ ": is a directory")
  | some .noAccess => .error ("open " ++ name ++ ": permission denied")
  | _ => .ok (fs.set name (.file [] env.now))

/-- The call `io.Copy(writer, s)` into the created file `dst` from the open
file `s`. (The progress bar, the other half of `writer`, is not modelled.) -/
def ioCopy (env : Env) (fs : FS) (dst s : String) : Except String FS :=
  match readAll fs s with
  | .error e => .error e
  | .ok c => .ok (fs.set dst (.file c env.now))

/-- The call `os.Chtimes(name, mtime, mtime)`. -/
def osChtimes (fs : FS) (name : String) (mtime : Time) : Except String FS :=
  match fs name with
  | some (.file c _) => .ok (fs.set name (.file c mtime))
  | some (.dir sz _) => .ok (fs.set name (.dir sz mtime))
  | some .noAccess => .error ("chtimes " ++ name ++ ": permission denied")
  | none => .error ("chtimes " ++ name ++ ": no such file or directory")

/-- Modelled from the spec: the run of the external program
`rsync -tP --inplace src dst` (the command `c.Run()` starts), which is not part
of the repository. The spec calls it an in-place, time-preserving delta
transfer whose exit status is the result: on exit status 0 the destination is
the source file with the source modification time; on failure the destination
is left as the environment says. -/
def rsyncRun (env : Env) (fs : FS) (src dst : String) : Option String × FS :=
  match env.rsyncFails fs src dst with
  | some (msg, none) => (some msg, fs)
  | some (msg, some left) => (some msg, fs.set dst left)
  | none =>
    match fs src with
    | some (.file c m) => (none, fs.set dst (.file c m))
    | _ => (none, fs)

/-! ## The functions of `main.go` -/

/-- The constant `defaultDateFormat`. -/
def defaultDateFormat : String := "2006-01-02"

/-- The method `printStatistics`. -/
def printStatistics (tt : TransferTask) (w : World) : World :=
  w.print ("\n" ++ toString tt.statistics.created ++ " new files, "
    ++ toString tt.statistics.overwritten ++ " overwritten, "
    ++ toString tt.statistics.skipped ++ " skipped, "
    ++ toString tt.statistics.merged ++ " merged\n")

/-- The function `cp(from, to)`: copies the file and sets the times of the copy
to the modification time of the source. -/
def cp (env : Env) (src dst : String) (w0 : World) : Option String × World :=
  let w := w0.record (.cp src dst)
  match osOpen w.fs src with
  | .error e => (some e, w)
  | .ok s =>
    let p := filepathDir dst
    match osMkdirAll env w.fs p with
    | (some e, fs1) => (some e, w.withFS fs1)
    | (none, fs1) =>
      match osCreate env fs1 dst with
      | .error e => (some e, w.withFS fs1)
      | .ok fs2 =>
        match osStat fs2 src with
        | .error e => (some e.msg, w.withFS fs2)
        | .ok _ =>
          match ioCopy env fs2 dst s with
          | .error e => (some e, w.withFS fs2)
          | .ok fs3 =>
            match osStat fs3 src with
            | .error e => (some e.msg, w.withFS fs3)
            | .ok i =>
              match osChtimes fs3 dst i.modTime with
              | .error e => (some e, w.withFS fs3)
              | .ok fs4 => (none, w.withFS fs4)

/-- The function `merge(from, to, verbose)`: `rsync` when it is installed, `cp`
otherwise. (With `verbose` the output of `rsync` goes to the terminal; that
text is not modelled.) -/
def merge (env : Env) (src dst : String) (_verbose : Bool) (w0 : World) :
    Option String × World :=
  let w := w0.record (.merge src dst)
  match env.rsyncPath with
  | none => cp env src dst (w.eprint "Warning: rsync not found. Falling back to simple copy\n")
  | some _ =>
    match rsyncRun env w.fs src dst with
    | (e, fs1) => (e, w.withFS fs1)

/-- The function `datePath(path, format)`. -/
def datePath (env : Env) (fs : FS) (path format : String) : Except String String :=
  match osOpen fs path with
  | .error e => .error e
  | .ok f =>
    match (readAll fs f).bind env.exifDecode with
    | .error e => .error e
    | .ok x =>
      match x.dateTime with
      | .error e => .error e
      | .ok tm => .ok (env.timeFormat tm format)

/-- The method `importItem`. -/
def importItem (env : Env) (tt : TransferTask) (w0 : World) (ci : CameraItem) :
    Option String × TransferTask × World :=
  let w := w0.record (.importItem ci)
  match datePath env w.fs ci.Path tt.dateFormat with
  | .error e => (some (ci.Path ++ ": " ++ e), tt, w)
  | .ok dp =>
    let d := filepathJoin [tt.dstDir, dp, filepathBase ci.Path]
    match osStat w.fs d with
    | .error e =>
      if e.notExist then
        let w1 := if tt.verbose then
          w.print ("Copying new file: " ++ ci.Path ++ " ==> " ++ d ++ "\n") else w
        match cp env ci.Path d w1 with
        | (some e1, w2) => (some ("Cannot copy " ++ ci.Path ++ ": " ++ e1), tt, w2)
        | (none, w2) => (none, tt.incCreated, w2)
      else (some ("Cannot stat " ++ d ++ ": " ++ e.msg), tt, w)
    | .ok di =>
      if ci.Size ≠ di.size then
        if tt.force then
          if ci.Size > 10 * 1024 * 1024 then
            let w1 := if tt.verbose then
              w.print ("Merging: " ++ ci.Path ++ " ==> " ++ d ++ "\n") else w
            match merge env ci.Path d tt.verbose w1 with
            | (some e1, w2) => (some ("Cannot merge " ++ ci.Path ++ ": " ++ e1), tt, w2)
            | (none, w2) => (none, tt.incMerged, w2)
          else
            let w1 := if tt.verbose then
              w.print ("Overwriting: " ++ ci.Path ++ " ==> " ++ d ++ "\n") else w
            match cp env ci.Path d w1 with
            | (some e1, w2) => (some ("Cannot copy " ++ ci.Path ++ ": " ++ e1), tt, w2)
            | (none, w2) => (none, tt.incOverwritten, w2)
        else
          let w1 := if tt.verbose then
            w.print ("Warning: Skipping " ++ ci.Path ++ " ==> " ++ d ++ " ("
              ++ toString ci.Size ++ " bytes vs " ++ toString di.size ++ " bytes)\n") else w
          (none, tt.incSkipped, w1)
      else if tt.superVerbose then
        (none, tt, w.print ("Already identical " ++ ci.Path ++ " == " ++ d ++ "\n"))
      else (none, tt, w)

/-- The method `walkPhotoVideos`, the walk function given to `filepath.Walk`. -/
def walkPhotoVideos (env : Env) (tt : TransferTask) (w : World) (path : String)
    (info : FileInfo) (err : Option String) : Option String × TransferTask × World :=
  match err with
  | some e => (some e, tt, w)
  | none =>
    if info.isDir then (none, tt, w)
    else
      let l := stringsToLower info.name
      if stringsHasSuffix l ".jpg" || stringsHasSuffix l "*.jpeg" then
        importItem env tt w ⟨path, info.modTime, info.size⟩
      else if stringsHasSuffix l ".mov" || stringsHasSuffix l ".mp4" then
        if tt.skipVideos then
          (none, tt, w.print ("Ignoring video file " ++ path ++ "\n"))
        else importItem env tt w ⟨path, info.modTime, info.size⟩
      else (none, tt, w)

/-- The function `walkPhotoVideos` of the older copy of the program,
`src/cmd/picadastra/main.go`. Its flags and counters are global variables,
gathered here in a `TransferTask`; its `importPhoto` and `importVideo` both
call `importItem`, which reads as the method above. -/
def legacyWalkPhotoVideos (env : Env) (tt : TransferTask) (w : World) (path : String)
    (info : FileInfo) (err : Option String) : Option String × TransferTask × World :=
  match err with
  | some e => (some e, tt, w)
  | none =>
    if info.isDir then (none, tt, w)
    else
      let l := stringsToLower info.name
      if stringsHasSuffix l ".jpg" || stringsHasSuffix l "*.jpeg" then
        importItem env tt w ⟨path, info.modTime, info.size⟩
      else if stringsHasSuffix l ".mov" then
        importItem env tt w ⟨path, info.modTime, info.size⟩
      else (none, tt, w)

/-- The loop of `filepath.Walk` with `walkPhotoVideos` as walk function: the
function is called on each entry in turn and the first error it returns ends
the walk and is the result. (`walkPhotoVideos` never returns
`filepath.SkipDir`.) -/
def walkEntries (env : Env) : List WalkEntry → TransferTask → World →
    Option String × TransferTask × World
  | [], tt, w => (none, tt, w)
  | e :: rest, tt, w =>
    match walkPhotoVideos env tt w e.path e.info e.err with
    | (some x, tt1, w1) => (some x, tt1, w1)
    | (none, tt1, w1) => walkEntries env rest tt1 w1

/-- The call `filepath.Walk(root, tt.walkPhotoVideos)`. -/
def filepathWalk (env : Env) (root : String) (tt : TransferTask) (w : World) :
    Option String × TransferTask × World :=
  walkEntries env (env.walk w.fs root) tt w

/-- The method `Exec`; the deferred `printStatistics` runs last on every path. -/
def Exec (env : Env) (tt : TransferTask) (w : World) :
    Option String × TransferTask × World :=
  let r : Option String × TransferTask × World :=
    match osStat w.fs tt.srcDir with
    | .error e => (some e.msg, tt, w)
    | .ok si =>
      if !si.isDir then
        (some ("invalid source: " ++ tt.srcDir ++ " is not a directory"), tt, w)
      else
        match osStat w.fs tt.srcDir with
        | .error e => (some e.msg, tt, w)
        | .ok di =>
          if !di.isDir then
            (some ("invalid destination: " ++ tt.dstDir ++ " is not a directory"), tt, w)
          else filepathWalk env tt.srcDir tt w
  (r.1, r.2.1, printStatistics r.2.1 r.2.2)

/-- The values of the command-line flags after `flag.Parse()`. -/
structure Flags where
  v : Bool
  vv : Bool
  d : String
  f : Bool
  s : Bool
  deriving DecidableEq

/-- The `TransferTask` literal that `main` builds from the flags. -/
def newTransferTask (flags : Flags) : TransferTask :=
  { srcDir := ""
    dstDir := ""
    dateFormat := flags.d
    verbose := flags.v || flags.vv
    superVerbose := flags.v
    force := flags.f
    skipVideos := flags.s
    statistics := ⟨0, 0, 0, 0⟩ }

/-- The last statement of `main`: run the task, report an error, exit. -/
def runTask (env : Env) (tt : TransferTask) (w : World) : Nat × TransferTask × World :=
  match Exec env tt w with
  | (some e, tt1, w1) => (1, tt1, w1.eprint (e ++ "\n"))
  | (none, tt1, w1) => (0, tt1, w1)

/-- The function `main`, given the parsed flags and `flag.Args()`; the first
component is the exit status. (The text `flag.PrintDefaults` adds to the usage
message is left out.) -/
def main (env : Env) (flags : Flags) (args : List String) (w : World) :
    Nat × TransferTask × World :=
  let tt := newTransferTask flags
  match args with
  | [a] => runTask env { tt with srcDir := a, dstDir := filepathJoin [env.homeDir, "Pictures"] } w
  | [a, b] => runTask env { tt with srcDir := a, dstDir := b } w
  | _ =>
    (1, tt, (w.eprint
      "Usage: picadastra [options] <source dir> <destination dir>\n\nOptions:\n").eprint "\n")

/-! ## Sample data and auxiliary definitions -/

/-- What a successful `cp src dst` leaves behind, from the world `w` to the
world `w1`: the source was a regular file; the destination is a regular file and
equal to the source as it is afterwards; it is the source as it was when the two
names differ; no other existing entry has changed; nothing was printed; the call
was recorded. -/
structure CpDone (src dst : String) (w w1 : World) : Prop where
  srcFile : ∃ c m, w.fs src = some (.file c m)
  dstFile : ∃ c m, w1.fs dst = some (.file c m)
  mirror : w1.fs dst = w1.fs src
  copied : src ≠ dst → w1.fs dst = w.fs src
  others : ∀ q, q ≠ dst → w.fs q ≠ none → w1.fs q = w.fs q
  out : w1.out = w.out
  errOut : w1.errOut = w.errOut
  calls : w1.calls = w.calls ++ [.cp src dst]

/-- The world in which `importItem` calls `cp` or `merge`, or returns after a
skip: its own entry is recorded and, with `verbose`, one line is printed. -/
def announced (tt : TransferTask) (w : World) (ci : CameraItem) (line : String) : World :=
  if tt.verbose then (w.record (.importItem ci)).print line else w.record (.importItem ci)

/-- A source directory with a photo `a.jpg` (three bytes) and a file `bad.jpg`
without a byte in it, and an empty destination directory. -/
def sampleFS : FS := fun p =>
  if p = "/src" then some (.dir 4096 50)
  else if p = "/src/a.jpg" then some (.file [1, 2, 3] 100)
  else if p = "/src/bad.jpg" then some (.file [] 90)
  else if p = "/dst" then some (.dir 4096 60)
  else none

/-- An environment in which every file that is not empty carries the capture
date 2023-03-05, `rsync` is installed and works, and the walk of the source
visits the directory and then `a.jpg`. -/
def sampleEnv : Env where
  exifDecode := fun c => match c with
    | [] => .error "EOF"
    | _ :: _ => .ok ⟨.ok 0⟩
  timeFormat := fun _ _ => "2023-03-05"
  rsyncPath := some "/usr/bin/rsync"
  rsyncFails := fun _ _ _ => none
  now := 1000
  dirSize := 4096
  homeDir := "/home/u"
  walk := fun _ _ =>
    [⟨"/src", ⟨"src", 4096, 50, true⟩, none⟩,
      ⟨"/src/a.jpg", ⟨"a.jpg", 3, 100, false⟩, none⟩]

/-- The task of `picadastra /src /dst` without flags, before any file. -/
def sampleTask : TransferTask :=
  ⟨"/src", "/dst", "2006-01-02", false, false, false, false, ⟨0, 0, 0, 0⟩⟩

/-- The sample world before the run. -/
def sampleWorld : World := ⟨sampleFS, [], [], []⟩

/-- The item `walkPhotoVideos` builds for `a.jpg`. -/
def sampleItem : CameraItem := ⟨"/src/a.jpg", 100, 3⟩

/-- The sample world after `a.jpg` was imported. -/
def importedWorld : World :=
  ⟨sampleFS.set "/dst/2023-03-05/a.jpg" (.file [1, 2, 3] 100), [], [], []⟩

/-- The sample world with an older, shorter `a.jpg` at the destination. -/
def staleWorld : World :=
  ⟨sampleFS.set "/dst/2023-03-05/a.jpg" (.file [9] 70), [], [], []⟩

/-- The sample task with `-f`. -/
def forceTask : TransferTask :=
  ⟨"/src", "/dst", "2006-01-02", false, false, true, false, ⟨0, 0, 0, 0⟩⟩

/-- An item for `a.jpg` whose `Size` is exactly 10 MiB. -/
def boundaryItem : CameraItem := ⟨"/src/a.jpg", 100, 10485760⟩

/-- An item for `a.jpg` whose `Size` is not the length of the file (what
`Lstat` reports for a symbolic link, or for a file that grew since). -/
def linkItem : CameraItem := ⟨"/src/a.jpg", 100, 7⟩

/-- The walk entry of `bad.jpg`. -/
def badEntry : WalkEntry := ⟨"/src/bad.jpg", ⟨"bad.jpg", 0, 90, false⟩, none⟩

/-- The walk entry of `a.jpg`. -/
def goodEntry : WalkEntry := ⟨"/src/a.jpg", ⟨"a.jpg", 3, 100, false⟩, none⟩

/-- The walk entry of the source directory. -/
def dirEntry : WalkEntry := ⟨"/src", ⟨"src", 4096, 50, true⟩, none⟩

/-- The task of `picadastra -f /dst /dst`: the tree is imported into itself. -/
def selfTask : TransferTask :=
  ⟨"/dst", "/dst", "2006-01-02", false, false, true, false, ⟨0, 0, 0, 0⟩⟩

/-- An item for the imported photo `/dst/2023-03-05/a.jpg`, which is its own
destination under `selfTask`, with a `Size` that is not the length of the file
(what `Lstat` reports when the entry is a symbolic link). -/
def selfItem : CameraItem := ⟨"/dst/2023-03-05/a.jpg", 100, 7⟩

/-- The sample task with a destination that does not exist. -/
def noDestTask : TransferTask :=
  ⟨"/src", "/nope", "2006-01-02", false, false, false, false, ⟨0, 0, 0, 0⟩⟩

/-! ## Lemmas and theorems -/

/-- Reading the name just written. -/
theorem FS.set_same (fs : FS) (p : String) (n : Node) : fs.set p n p = some n := by
  simp [FS.set]

/-- Reading another name than the one just written. -/
theorem FS.set_other (fs : FS) (p q : String) (n : Node) (h : q ≠ p) :
    fs.set p n q = fs q := by
  simp [FS.set, h]

/-- `os.Mkdir` leaves every existing entry as it was. -/
theorem osMkdir_keeps (env : Env) (fs fs1 : FS) (p q : String)
    (h : osMkdir env fs p = .ok fs1) (hq : fs q ≠ none) : fs1 q = fs q := by
  unfold osMkdir at h
  split at h
  · rename_i hp
    injection h with h
    subst h
    have : q ≠ p := by
      intro e
      subst e
      exact hq hp
    exact FS.set_other _ _ _ _ this
  · cases h

/-- `os.MkdirAll` leaves every existing entry as it was, also when it fails. -/
theorem mkdirAllAux_keeps (env : Env) (chain : List String) :
    ∀ (fs : FS) (q : String), fs q ≠ none → (mkdirAllAux env chain fs).2 q = fs q := by
  induction chain with
  | nil => intro fs q _; rfl
  | cons p parents ih =>
    intro fs q hq
    unfold mkdirAllAux
    split
    · split <;> rfl
    · have ih1 := ih fs q hq
      split
      · rename_i e fs1 heq
        rw [heq] at ih1
        exact ih1
      · rename_i fs1 heq
        rw [heq] at ih1
        simp only at ih1
        split
        · rename_i fs2 hmk
          simp only
          rw [osMkdir_keeps env fs1 fs2 p q hmk (by rw [ih1]; exact hq)]
          exact ih1
        · split
          · split <;> exact ih1
          · exact ih1

/-- `cp` records exactly its own call. -/
theorem cp_calls (env : Env) (src dst : String) (w : World) :
    (cp env src dst w).2.calls = w.calls ++ [.cp src dst] := by
  unfold cp
  simp only
  repeat' split
  all_goals rfl

/-- A `cp` that returns no error has copied the file. -/
theorem cp_done (env : Env) (src dst : String) (w : World)
    (h : (cp env src dst w).1 = none) : CpDone src dst w (cp env src dst w).2 := by
  unfold cp at h ⊢
  simp only at h ⊢
  split at h
  · cases h
  rename_i s hopen
  split at h
  · cases h
  rename_i fs1 hmk
  split at h
  · cases h
  rename_i fs2 hcreate
  split at h
  · cases h
  rename_i i0 hstat0
  split at h
  · cases h
  rename_i fs3 hcopy
  split at h
  · cases h
  rename_i i hstat
  split at h
  · cases h
  rename_i fs4 hch
  have hs : s = src ∧ w.fs src ≠ none := by
    unfold osOpen at hopen
    split at hopen
    · cases hopen
    · cases hopen
    · rename_i n hn
      injection hopen with e
      refine ⟨e.symm, ?_⟩
      intro h0
      simp [World.record, h0] at hn
  obtain ⟨hs1, hsrc⟩ := hs
  subst hs1
  have hkeep : ∀ q, w.fs q ≠ none → fs1 q = w.fs q := by
    intro q hq
    have := mkdirAllAux_keeps env (mkdirAllChain (filepathDir dst)) w.fs q hq
    unfold osMkdirAll at hmk
    simp only [World.record] at hmk
    rw [hmk] at this
    exact this
  have h2 : fs2 = fs1.set dst (.file [] env.now) := by
    unfold osCreate at hcreate
    split at hcreate
    · cases hcreate
    · cases hcreate
    · injection hcreate with e
      exact e.symm
  have h3 : ∃ c m, fs2 s = some (.file c m) ∧ fs3 = fs2.set dst (.file c env.now) := by
    unfold ioCopy readAll at hcopy
    split at hcopy
    · cases hcopy
    · rename_i c hc
      split at hc
      · rename_i c1 m1 hf
        injection hc with e
        injection hcopy with e1
        exact ⟨c1, m1, hf, by rw [← e1, e]⟩
      · cases hc
      · cases hc
  obtain ⟨c, m0, hf2, h3⟩ := h3
  have hi : fs3 s = some (.file c i.modTime) := by
    unfold osStat at hstat
    by_cases hsd : s = dst
    · rw [h3, hsd, FS.set_same] at hstat
      simp only at hstat
      injection hstat with e
      rw [h3, hsd, FS.set_same, ← e]
    · rw [h3, FS.set_other _ _ _ _ hsd, hf2] at hstat
      simp only at hstat
      injection hstat with e
      rw [h3, FS.set_other _ _ _ _ hsd, hf2, ← e]
  have h4 : fs4 = fs3.set dst (.file c i.modTime) := by
    unfold osChtimes at hch
    rw [h3, FS.set_same] at hch
    simp only at hch
    injection hch with e
    rw [← e, h3]
  have hsrc0 : ∃ c m, w.fs s = some (.file c m) := by
    by_cases hsd : s = dst
    · have hk := hkeep s hsrc
      unfold osCreate at hcreate
      rw [← hsd] at hcreate
      cases hw : w.fs s with
      | none => exact absurd hw hsrc
      | some n =>
        rw [hw] at hk
        rw [hk] at hcreate
        cases n with
        | file c1 m1 => exact ⟨c1, m1, rfl⟩
        | dir sz m1 => simp at hcreate
        | noAccess => simp at hcreate
    · rw [h2, FS.set_other _ _ _ _ hsd, hkeep s hsrc] at hf2
      exact ⟨c, m0, hf2⟩
  refine ⟨hsrc0, ⟨c, i.modTime, ?_⟩, ?_, ?_, ?_, rfl, rfl, rfl⟩
  · simp only [World.withFS]
    rw [h4, FS.set_same]
  · simp only [World.withFS]
    by_cases hsd : s = dst
    · rw [hsd]
    · rw [h4, FS.set_same, FS.set_other _ _ _ _ hsd, hi]
  · intro hsd
    simp only [World.withFS]
    rw [h4, FS.set_same, ← hi, h3, FS.set_other _ _ _ _ hsd, h2, FS.set_other _ _ _ _ hsd,
      hkeep s hsrc]
  · intro q hq hne
    simp only [World.withFS]
    rw [h4, FS.set_other _ _ _ _ hq, h3, FS.set_other _ _ _ _ hq, h2, FS.set_other _ _ _ _ hq,
      hkeep q hne]

/-- Whether `cp` succeeds, and the file system it leaves, depend only on the
file system it starts from. -/
theorem cp_fs_only (env : Env) (src dst : String) (w w1 : World) (h : w.fs = w1.fs) :
    (cp env src dst w).1 = (cp env src dst w1).1 ∧
      (cp env src dst w).2.fs = (cp env src dst w1).2.fs := by
  unfold cp
  simp only [World.record, World.withFS, h]
  repeat' split
  all_goals exact ⟨rfl, rfl⟩

/-- `datePath` of a regular file whose EXIF data holds a capture time. -/
theorem datePath_file (env : Env) (fs : FS) (path format : String) (c : Bytes) (m : Time)
    (x : Exif) (tm : Time) (hsrc : fs path = some (.file c m))
    (hx : env.exifDecode c = .ok x) (htm : x.dateTime = .ok tm) :
    datePath env fs path format = .ok (env.timeFormat tm format) := by
  simp [datePath, osOpen, readAll, hsrc, Except.bind, hx, htm]

/-- Announcing a transfer does not touch the file system. -/
theorem announced_fs (tt : TransferTask) (w : World) (ci : CameraItem) (line : String) :
    (announced tt w ci line).fs = w.fs := by
  unfold announced
  split <;> rfl

/-- Announcing a transfer records the call of `importItem`. -/
theorem announced_calls (tt : TransferTask) (w : World) (ci : CameraItem) (line : String) :
    (announced tt w ci line).calls = w.calls ++ [.importItem ci] := by
  unfold announced
  split <;> rfl

/-- The branch of `importItem` for a destination that does not exist. -/
theorem importItem_absent (env : Env) (tt : TransferTask) (w : World) (ci : CameraItem)
    (dp : String) (hdp : datePath env w.fs ci.Path tt.dateFormat = .ok dp)
    (hnone : w.fs (filepathJoin [tt.dstDir, dp, filepathBase ci.Path]) = none) :
    importItem env tt w ci =
      match cp env ci.Path (filepathJoin [tt.dstDir, dp, filepathBase ci.Path])
        (announced tt w ci ("Copying new file: " ++ ci.Path ++ " ==> "
          ++ filepathJoin [tt.dstDir, dp, filepathBase ci.Path] ++ "\n")) with
      | (some e1, w2) => (some ("Cannot copy " ++ ci.Path ++ ": " ++ e1), tt, w2)
      | (none, w2) => (none, tt.incCreated, w2) := by
  simp only [importItem, World.record, hdp, osStat, hnone, announced]
  rfl

/-- The branch of `importItem` for a destination of the same size. -/
theorem importItem_same (env : Env) (tt : TransferTask) (w : World) (ci : CameraItem)
    (dp : String) (di : FileInfo) (hdp : datePath env w.fs ci.Path tt.dateFormat = .ok dp)
    (hst : osStat w.fs (filepathJoin [tt.dstDir, dp, filepathBase ci.Path]) = .ok di)
    (heq : ci.Size = di.size) :
    importItem env tt w ci =
      (none, tt, if tt.superVerbose then
        (w.record (.importItem ci)).print ("Already identical " ++ ci.Path ++ " == "
          ++ filepathJoin [tt.dstDir, dp, filepathBase ci.Path] ++ "\n")
        else w.record (.importItem ci)) := by
  simp only [importItem, World.record, hdp, hst]
  rw [if_neg (by simp [heq])]
  split <;> rfl

/-- The branch of `importItem` for a destination of another size, without `force`. -/
theorem importItem_skip (env : Env) (tt : TransferTask) (w : World) (ci : CameraItem)
    (dp : String) (di : FileInfo) (hdp : datePath env w.fs ci.Path tt.dateFormat = .ok dp)
    (hst : osStat w.fs (filepathJoin [tt.dstDir, dp, filepathBase ci.Path]) = .ok di)
    (hne : ci.Size ≠ di.size) (hf : tt.force = false) :
    importItem env tt w ci =
      (none, tt.incSkipped, announced tt w ci ("Warning: Skipping " ++ ci.Path ++ " ==> "
        ++ filepathJoin [tt.dstDir, dp, filepathBase ci.Path] ++ " ("
        ++ toString ci.Size ++ " bytes vs " ++ toString di.size ++ " bytes)\n")) := by
  simp only [importItem, World.record, hdp, hst, hf, announced]
  simp [hne]

/-- The branch of `importItem` for a destination of another size, with `force`,
for a source of at most 10 MiB. -/
theorem importItem_overwrite (env : Env) (tt : TransferTask) (w : World) (ci : CameraItem)
    (dp : String) (di : FileInfo) (hdp : datePath env w.fs ci.Path tt.dateFormat = .ok dp)
    (hst : osStat w.fs (filepathJoin [tt.dstDir, dp, filepathBase ci.Path]) = .ok di)
    (hne : ci.Size ≠ di.size) (hf : tt.force = true) (hsmall : ci.Size ≤ 10485760) :
    importItem env tt w ci =
      match cp env ci.Path (filepathJoin [tt.dstDir, dp, filepathBase ci.Path])
        (announced tt w ci ("Overwriting: " ++ ci.Path ++ " ==> "
          ++ filepathJoin [tt.dstDir, dp, filepathBase ci.Path] ++ "\n")) with
      | (some e1, w2) => (some ("Cannot copy " ++ ci.Path ++ ": " ++ e1), tt, w2)
      | (none, w2) => (none, tt.incOverwritten, w2) := by
  have hs : ¬ 10485760 < ci.Size := by omega
  simp only [importItem, World.record, hdp, hst, hf, announced]
  simp [hne, hs]

/-- The branch of `importItem` for a destination of another size, with `force`,
for a source of more than 10 MiB. -/
theorem importItem_merge (env : Env) (tt : TransferTask) (w : World) (ci : CameraItem)
    (dp : String) (di : FileInfo) (hdp : datePath env w.fs ci.Path tt.dateFormat = .ok dp)
    (hst : osStat w.fs (filepathJoin [tt.dstDir, dp, filepathBase ci.Path]) = .ok di)
    (hne : ci.Size ≠ di.size) (hf : tt.force = true) (hbig : 10485760 < ci.Size) :
    importItem env tt w ci =
      match merge env ci.Path (filepathJoin [tt.dstDir, dp, filepathBase ci.Path]) tt.verbose
        (announced tt w ci ("Merging: " ++ ci.Path ++ " ==> "
          ++ filepathJoin [tt.dstDir, dp, filepathBase ci.Path] ++ "\n")) with
      | (some e1, w2) => (some ("Cannot merge " ++ ci.Path ++ ": " ++ e1), tt, w2)
      | (none, w2) => (none, tt.incMerged, w2) := by
  simp only [importItem, World.record, hdp, hst, hf, announced]
  simp [hne, hbig]

/-- `merge` records its own call, and the call of `cp` when `rsync` is not installed. -/
theorem merge_calls (env : Env) (src dst : String) (v : Bool) (w : World) :
    (merge env src dst v w).2.calls =
      w.calls ++ .merge src dst :: (if env.rsyncPath = none then [.cp src dst] else []) := by
  unfold merge
  simp only
  split
  · rename_i h
    rw [cp_calls]
    simp [World.eprint, World.record, h]
  · rename_i p h
    simp [World.withFS, World.record, h]

/-- `os.Stat` of a name that denotes nothing fails with a does-not-exist error. -/
theorem osStat_none (fs : FS) (p : String) (h : fs p = none) :
    ∃ e, osStat fs p = .error e ∧ e.notExist = true := by
  simp [osStat, h]

/-- C1: for every task and every item whose source is a regular file (content
`c`, modification time `m`) with a readable capture time `tm`, if the
destination `join(dstDir, format(tm, dateFormat), base(item.Path))` does not
exist and `cp` of the source to it succeeds, then `importItem` returns no error,
the destination is afterwards the file with content `c` and modification time
`m`, `created` has grown by exactly 1, and `overwritten`, `skipped` and `merged`
are unchanged. -/
theorem importItem_creates_new (env : Env) (tt : TransferTask) (w : World) (ci : CameraItem)
    (c : Bytes) (m : Time) (x : Exif) (tm : Time)
    (hsrc : w.fs ci.Path = some (.file c m))
    (hx : env.exifDecode c = .ok x) (htm : x.dateTime = .ok tm)
    (hnone : w.fs (filepathJoin [tt.dstDir, env.timeFormat tm tt.dateFormat,
      filepathBase ci.Path]) = none)
    (hcp : (cp env ci.Path (filepathJoin [tt.dstDir, env.timeFormat tm tt.dateFormat,
      filepathBase ci.Path]) w).1 = none) :
    (importItem env tt w ci).1 = none ∧
    (importItem env tt w ci).2.2.fs (filepathJoin [tt.dstDir, env.timeFormat tm tt.dateFormat,
      filepathBase ci.Path]) = some (.file c m) ∧
    (importItem env tt w ci).2.1.statistics.created = tt.statistics.created + 1 ∧
    (importItem env tt w ci).2.1.statistics.overwritten = tt.statistics.overwritten ∧
    (importItem env tt w ci).2.1.statistics.skipped = tt.statistics.skipped ∧
    (importItem env tt w ci).2.1.statistics.merged = tt.statistics.merged := by
  have hdp := datePath_file env w.fs ci.Path tt.dateFormat c m x tm hsrc hx htm
  rw [importItem_absent env tt w ci _ hdp hnone]
  generalize hw1 : announced tt w ci _ = w1
  have hfs : w1.fs = w.fs := by rw [← hw1]; exact announced_fs _ _ _ _
  have hok : (cp env ci.Path (filepathJoin [tt.dstDir, env.timeFormat tm tt.dateFormat,
      filepathBase ci.Path]) w1).1 = none := by
    rw [(cp_fs_only env _ _ w1 w hfs).1]
    exact hcp
  have hdone := cp_done env _ _ w1 hok
  have hne : ci.Path ≠ filepathJoin [tt.dstDir, env.timeFormat tm tt.dateFormat,
      filepathBase ci.Path] := by
    intro e
    rw [← e, hsrc] at hnone
    cases hnone
  have hd := hdone.copied hne
  rw [hfs, hsrc] at hd
  generalize cp env ci.Path _ w1 = r at hok hd
  obtain ⟨e, w2⟩ := r
  simp only at hok
  subst hok
  exact ⟨rfl, hd, rfl, rfl, rfl, rfl⟩

/-- C2: when the destination of an item exists with a size different from
`item.Size` and `force` is false, `importItem` returns no error, records no call
of `cp` or `merge` (the only call recorded is its own), leaves the whole file
system as it was, adds exactly 1 to `skipped` and leaves `created`,
`overwritten` and `merged` unchanged. -/
theorem importItem_skips_without_force (env : Env) (tt : TransferTask) (w : World)
    (ci : CameraItem) (dp : String) (di : FileInfo)
    (hdp : datePath env w.fs ci.Path tt.dateFormat = .ok dp)
    (hst : osStat w.fs (filepathJoin [tt.dstDir, dp, filepathBase ci.Path]) = .ok di)
    (hne : di.size ≠ ci.Size) (hf : tt.force = false) :
    (importItem env tt w ci).1 = none ∧
    (importItem env tt w ci).2.2.calls = w.calls ++ [.importItem ci] ∧
    (importItem env tt w ci).2.2.fs = w.fs ∧
    (importItem env tt w ci).2.1.statistics.skipped = tt.statistics.skipped + 1 ∧
    (importItem env tt w ci).2.1.statistics.created = tt.statistics.created ∧
    (importItem env tt w ci).2.1.statistics.overwritten = tt.statistics.overwritten ∧
    (importItem env tt w ci).2.1.statistics.merged = tt.statistics.merged := by
  rw [importItem_skip env tt w ci dp di hdp hst (Ne.symm hne) hf]
  exact ⟨rfl, announced_calls _ _ _ _, announced_fs _ _ _ _, rfl, rfl, rfl, rfl⟩

/-- The two forced branches of `importItem`, for every item: when the destination
exists with a size different from `item.Size` and `force` is true, the size of
the item alone decides. Above 10485760 bytes `importItem` calls `merge` (which
calls `cp` only when `rsync` is not installed) and, when it returns no error,
`merged` has grown by exactly 1 and the other counters are unchanged. At
10485760 bytes or below it calls `cp` and nothing else and, when it returns no
error, `overwritten` has grown by exactly 1 and the other counters are
unchanged; the destination is then a regular file, equal to the source as it is
after the call, and it is the file the source was before the call whenever
source and destination are different names. -/
theorem importItem_force_threshold (env : Env) (tt : TransferTask) (w : World)
    (ci : CameraItem) (dp : String) (di : FileInfo)
    (hdp : datePath env w.fs ci.Path tt.dateFormat = .ok dp)
    (hst : osStat w.fs (filepathJoin [tt.dstDir, dp, filepathBase ci.Path]) = .ok di)
    (hne : di.size ≠ ci.Size) (hf : tt.force = true) :
    (10485760 < ci.Size →
      (importItem env tt w ci).2.2.calls =
        w.calls ++ [.importItem ci, .merge ci.Path (filepathJoin [tt.dstDir, dp,
          filepathBase ci.Path])] ++
          (if env.rsyncPath = none then
            [.cp ci.Path (filepathJoin [tt.dstDir, dp, filepathBase ci.Path])] else []) ∧
      ((importItem env tt w ci).1 = none →
        (importItem env tt w ci).2.1.statistics.merged = tt.statistics.merged + 1 ∧
        (importItem env tt w ci).2.1.statistics.created = tt.statistics.created ∧
        (importItem env tt w ci).2.1.statistics.overwritten = tt.statistics.overwritten ∧
        (importItem env tt w ci).2.1.statistics.skipped = tt.statistics.skipped)) ∧
    (ci.Size ≤ 10485760 →
      (importItem env tt w ci).2.2.calls =
        w.calls ++ [.importItem ci, .cp ci.Path (filepathJoin [tt.dstDir, dp,
          filepathBase ci.Path])] ∧
      ((importItem env tt w ci).1 = none →
        (importItem env tt w ci).2.1.statistics.overwritten = tt.statistics.overwritten + 1 ∧
        (importItem env tt w ci).2.1.statistics.created = tt.statistics.created ∧
        (importItem env tt w ci).2.1.statistics.skipped = tt.statistics.skipped ∧
        (importItem env tt w ci).2.1.statistics.merged = tt.statistics.merged ∧
        (∃ c m, (importItem env tt w ci).2.2.fs (filepathJoin [tt.dstDir, dp,
          filepathBase ci.Path]) = some (.file c m)) ∧
        (importItem env tt w ci).2.2.fs (filepathJoin [tt.dstDir, dp, filepathBase ci.Path]) =
          (importItem env tt w ci).2.2.fs ci.Path ∧
        (ci.Path ≠ filepathJoin [tt.dstDir, dp, filepathBase ci.Path] →
          (importItem env tt w ci).2.2.fs (filepathJoin [tt.dstDir, dp, filepathBase ci.Path]) =
            w.fs ci.Path))) := by
  constructor
  · intro hbig
    rw [importItem_merge env tt w ci dp di hdp hst (Ne.symm hne) hf hbig]
    generalize hw1 : announced tt w ci _ = w1
    have hc1 : w1.calls = w.calls ++ [.importItem ci] := by
      rw [← hw1]; exact announced_calls _ _ _ _
    have hc := merge_calls env ci.Path (filepathJoin [tt.dstDir, dp, filepathBase ci.Path])
      tt.verbose w1
    rw [hc1] at hc
    generalize merge env ci.Path _ tt.verbose w1 = r at hc
    obtain ⟨e, w2⟩ := r
    cases e with
    | some e1 =>
      refine ⟨?_, fun h => by cases h⟩
      simpa using hc
    | none =>
      refine ⟨?_, fun _ => ⟨rfl, rfl, rfl, rfl⟩⟩
      simpa using hc
  · intro hsmall
    rw [importItem_overwrite env tt w ci dp di hdp hst (Ne.symm hne) hf hsmall]
    generalize hw1 : announced tt w ci _ = w1
    have hc1 : w1.calls = w.calls ++ [.importItem ci] := by
      rw [← hw1]; exact announced_calls _ _ _ _
    have hfs : w1.fs = w.fs := by rw [← hw1]; exact announced_fs _ _ _ _
    have hc := cp_calls env ci.Path (filepathJoin [tt.dstDir, dp, filepathBase ci.Path]) w1
    have hdone := cp_done env ci.Path (filepathJoin [tt.dstDir, dp, filepathBase ci.Path]) w1
    rw [hc1] at hc
    generalize cp env ci.Path _ w1 = r at hc hdone
    obtain ⟨e, w2⟩ := r
    cases e with
    | some e1 =>
      refine ⟨?_, fun h => by cases h⟩
      simpa using hc
    | none =>
      have hd := hdone rfl
      refine ⟨?_, fun _ => ⟨rfl, rfl, rfl, rfl, hd.dstFile, hd.mirror,
        fun h => by rw [← hfs]; exact hd.copied h⟩⟩
      simpa using hc

/-- C4: for every task, whatever `force`, `verbose` and `superVerbose` are, when
the destination of an item exists with size `item.Size`, `importItem` returns no
error, records no call of `cp` or `merge` (the only call recorded is its own),
leaves the whole file system as it was and leaves all four counters unchanged. -/
theorem importItem_identical_noop (env : Env) (tt : TransferTask) (w : World)
    (ci : CameraItem) (dp : String) (di : FileInfo)
    (hdp : datePath env w.fs ci.Path tt.dateFormat = .ok dp)
    (hst : osStat w.fs (filepathJoin [tt.dstDir, dp, filepathBase ci.Path]) = .ok di)
    (heq : di.size = ci.Size) :
    (importItem env tt w ci).1 = none ∧
    (importItem env tt w ci).2.2.calls = w.calls ++ [.importItem ci] ∧
    (importItem env tt w ci).2.2.fs = w.fs ∧
    (importItem env tt w ci).2.1.statistics.created = tt.statistics.created ∧
    (importItem env tt w ci).2.1.statistics.overwritten = tt.statistics.overwritten ∧
    (importItem env tt w ci).2.1.statistics.skipped = tt.statistics.skipped ∧
    (importItem env tt w ci).2.1.statistics.merged = tt.statistics.merged := by
  rw [importItem_same env tt w ci dp di hdp hst heq.symm]
  refine ⟨rfl, ?_, ?_, rfl, rfl, rfl, rfl⟩
  · simp only
    split <;> rfl
  · simp only
    split <;> rfl

/-- A does-not-exist error of `os.Stat` means the name denotes nothing. -/
theorem osStat_notExist (fs : FS) (p : String) (e : PathError)
    (h : osStat fs p = .error e) (hn : e.notExist = true) : fs p = none := by
  unfold osStat at h
  split at h
  · assumption
  · injection h with h
    subst h
    cases hn
  · cases h
  · cases h

/-- C7 as amended: a call of `importItem` that returns no error either found the
destination with size `item.Size` and changed no counter, or found no such
destination and added exactly 1 to exactly one of `created`, `overwritten`,
`skipped`, `merged`, leaving the other three unchanged; and no call of
`importItem`, failing or not, makes a counter smaller. -/
theorem importItem_counters (env : Env) (tt : TransferTask) (w : World) (ci : CameraItem) :
    ((importItem env tt w ci).1 = none →
      ∃ dp, datePath env w.fs ci.Path tt.dateFormat = .ok dp ∧
        (((∃ di, osStat w.fs (filepathJoin [tt.dstDir, dp, filepathBase ci.Path]) = .ok di ∧
              di.size = ci.Size) ∧
            (importItem env tt w ci).2.1.statistics = tt.statistics) ∨
          ((¬ ∃ di, osStat w.fs (filepathJoin [tt.dstDir, dp, filepathBase ci.Path]) = .ok di ∧
              di.size = ci.Size) ∧
            ((importItem env tt w ci).2.1.statistics =
                { tt.statistics with created := tt.statistics.created + 1 } ∨
              (importItem env tt w ci).2.1.statistics =
                { tt.statistics with overwritten := tt.statistics.overwritten + 1 } ∨
              (importItem env tt w ci).2.1.statistics =
                { tt.statistics with skipped := tt.statistics.skipped + 1 } ∨
              (importItem env tt w ci).2.1.statistics =
                { tt.statistics with merged := tt.statistics.merged + 1 })))) ∧
    tt.statistics.created ≤ (importItem env tt w ci).2.1.statistics.created ∧
    tt.statistics.overwritten ≤ (importItem env tt w ci).2.1.statistics.overwritten ∧
    tt.statistics.skipped ≤ (importItem env tt w ci).2.1.statistics.skipped ∧
    tt.statistics.merged ≤ (importItem env tt w ci).2.1.statistics.merged := by
  cases hdp : datePath env w.fs ci.Path tt.dateFormat with
  | error e =>
    have h : importItem env tt w ci =
        (some (ci.Path ++ ": " ++ e), tt, w.record (.importItem ci)) := by
      simp only [importItem, World.record, hdp]
    rw [h]
    simp
  | ok dp =>
    cases hst : osStat w.fs (filepathJoin [tt.dstDir, dp, filepathBase ci.Path]) with
    | error e =>
      by_cases hn : e.notExist = true
      · rw [importItem_absent env tt w ci dp hdp (osStat_notExist _ _ e hst hn)]
        generalize cp env ci.Path _ _ = r
        obtain ⟨e1, w2⟩ := r
        cases e1 with
        | some e1 => simp
        | none =>
          refine ⟨fun _ => ⟨dp, rfl, Or.inr ⟨?_, Or.inl rfl⟩⟩, ?_⟩
          · simp [hst]
          · simp [TransferTask.incCreated]
      · have h : importItem env tt w ci =
            (some ("Cannot stat " ++ filepathJoin [tt.dstDir, dp, filepathBase ci.Path] ++ ": "
              ++ e.msg), tt, w.record (.importItem ci)) := by
          simp only [importItem, World.record, hdp, hst]
          simp [hn]
        rw [h]
        simp
    | ok di =>
      by_cases heq : ci.Size = di.size
      · rw [importItem_same env tt w ci dp di hdp hst heq]
        refine ⟨fun _ => ⟨dp, rfl, Or.inl ⟨⟨di, hst, heq.symm⟩, rfl⟩⟩, ?_⟩
        simp
      · have hno : ¬ ∃ di1, osStat w.fs (filepathJoin [tt.dstDir, dp, filepathBase ci.Path])
            = .ok di1 ∧ di1.size = ci.Size := by
          rintro ⟨di1, h1, h2⟩
          rw [hst] at h1
          injection h1 with h1
          subst h1
          exact heq h2.symm
        cases hf : tt.force with
        | false =>
          rw [importItem_skip env tt w ci dp di hdp hst heq hf]
          refine ⟨fun _ => ⟨dp, rfl, Or.inr ⟨hno, Or.inr (Or.inr (Or.inl rfl))⟩⟩, ?_⟩
          simp [TransferTask.incSkipped]
        | true =>
          by_cases hbig : 10485760 < ci.Size
          · rw [importItem_merge env tt w ci dp di hdp hst heq hf hbig]
            generalize merge env ci.Path _ _ _ = r
            obtain ⟨e1, w2⟩ := r
            cases e1 with
            | some e1 => simp
            | none =>
              refine ⟨fun _ => ⟨dp, rfl, Or.inr ⟨hno, Or.inr (Or.inr (Or.inr rfl))⟩⟩, ?_⟩
              simp [TransferTask.incMerged]
          · rw [importItem_overwrite env tt w ci dp di hdp hst heq hf (by omega)]
            generalize cp env ci.Path _ _ = r
            obtain ⟨e1, w2⟩ := r
            cases e1 with
            | some e1 => simp
            | none =>
              refine ⟨fun _ => ⟨dp, rfl, Or.inr ⟨hno, Or.inr (Or.inl rfl)⟩⟩, ?_⟩
              simp [TransferTask.incOverwritten]

/-- A walk that got through a first stretch of entries without error goes on
with the rest. -/
theorem walkEntries_append (env : Env) (pre post : List WalkEntry) :
    ∀ (tt : TransferTask) (w : World) (tt1 : TransferTask) (w1 : World),
      walkEntries env pre tt w = (none, tt1, w1) →
      walkEntries env (pre ++ post) tt w = walkEntries env post tt1 w1 := by
  induction pre with
  | nil =>
    intro tt w tt1 w1 h
    simp only [walkEntries] at h
    injection h with _ h
    injection h with h1 h2
    subst h1
    subst h2
    rfl
  | cons e rest ih =>
    intro tt w tt1 w1 h
    simp only [List.cons_append, walkEntries] at h ⊢
    split at h
    · cases h
    · rename_i tt2 w2 heq
      exact ih tt2 w2 tt1 w1 h

/-- `importItem` of a file whose capture date cannot be read. -/
theorem importItem_unreadable (env : Env) (tt : TransferTask) (w : World) (ci : CameraItem)
    (msg : String) (hdate : datePath env w.fs ci.Path tt.dateFormat = .error msg) :
    importItem env tt w ci = (some (ci.Path ++ ": " ++ msg), tt, w.record (.importItem ci)) := by
  simp only [importItem, World.record, hdate]

/-- C8 as amended: when the walk has got through the entries `pre` without error
and the next entry is a regular file that qualifies (its lowered name ends in
`.jpg` or `*.jpeg`, or in `.mov` or `.mp4` with `skipVideos` off) but whose
capture date cannot be read, then `importItem` fails with an error that starts
with the path of the file and changes neither a counter nor the file system, and
the walk ends there with that error: whatever entries `post` follow, none of
them is passed to `importItem`. -/
theorem walk_stops_at_unreadable (env : Env) (pre post : List WalkEntry) (e : WalkEntry)
    (tt tt1 : TransferTask) (w w1 : World) (msg : String)
    (hpre : walkEntries env pre tt w = (none, tt1, w1))
    (herr : e.err = none) (hfile : e.info.isDir = false)
    (hqual : (stringsHasSuffix (stringsToLower e.info.name) ".jpg"
        || stringsHasSuffix (stringsToLower e.info.name) "*.jpeg"
        || ((stringsHasSuffix (stringsToLower e.info.name) ".mov"
              || stringsHasSuffix (stringsToLower e.info.name) ".mp4")
            && !tt1.skipVideos)) = true)
    (hdate : datePath env w1.fs e.path tt1.dateFormat = .error msg) :
    importItem env tt1 w1 ⟨e.path, e.info.modTime, e.info.size⟩ =
      (some (e.path ++ ": " ++ msg), tt1,
        w1.record (.importItem ⟨e.path, e.info.modTime, e.info.size⟩)) ∧
    walkEntries env (pre ++ e :: post) tt w =
      (some (e.path ++ ": " ++ msg), tt1,
        w1.record (.importItem ⟨e.path, e.info.modTime, e.info.size⟩)) := by
  have himp := importItem_unreadable env tt1 w1 ⟨e.path, e.info.modTime, e.info.size⟩ msg hdate
  refine ⟨himp, ?_⟩
  rw [walkEntries_append env pre (e :: post) tt w tt1 w1 hpre]
  have hw : walkPhotoVideos env tt1 w1 e.path e.info e.err =
      importItem env tt1 w1 ⟨e.path, e.info.modTime, e.info.size⟩ := by
    unfold walkPhotoVideos
    rw [herr]
    simp only [hfile]
    simp only [Bool.or_eq_true, Bool.and_eq_true, Bool.not_eq_true'] at hqual
    rcases hqual with (h | h) | ⟨h, hs⟩
    · simp [h]
    · simp [h]
    · by_cases hj : (stringsHasSuffix (stringsToLower e.info.name) ".jpg"
          || stringsHasSuffix (stringsToLower e.info.name) "*.jpeg") = true
      · rw [if_neg (by simp), if_pos hj]
      · have hv : (stringsHasSuffix (stringsToLower e.info.name) ".mov"
            || stringsHasSuffix (stringsToLower e.info.name) ".mp4") = true := by
          simpa using h
        rw [if_neg (by simp), if_neg hj, if_pos hv, if_neg (by simp [hs])]
  simp only [walkEntries, hw, himp]

/-- `datePath` reads only the file it is given. -/
theorem datePath_congr (env : Env) (fs fs1 : FS) (path format : String)
    (h : fs1 path = fs path) : datePath env fs1 path format = datePath env fs path format := by
  simp only [datePath, osOpen, h]
  cases hp : fs path with
  | none => rfl
  | some n =>
    cases n with
    | noAccess => rfl
    | file c m => simp only [readAll, h, hp]
    | dir sz m => simp only [readAll, h, hp]

/-- After a successful `cp` of a regular file to another name, both names hold
that file. -/
theorem cp_mirrors (env : Env) (src dst : String) (w : World) (c : Bytes) (m : Time)
    (hsrc : w.fs src = some (.file c m)) (hne : src ≠ dst)
    (h : (cp env src dst w).1 = none) :
    (cp env src dst w).2.fs dst = some (.file c m) ∧
      (cp env src dst w).2.fs src = some (.file c m) := by
  have hd := cp_done env src dst w h
  refine ⟨by rw [hd.copied hne, hsrc], ?_⟩
  rw [hd.others src hne (by rw [hsrc]; simp), hsrc]

/-- After a successful `merge` of a regular file to another name, both names
hold that file. -/
theorem merge_mirrors (env : Env) (src dst : String) (v : Bool) (w : World) (c : Bytes)
    (m : Time) (hsrc : w.fs src = some (.file c m)) (hne : src ≠ dst)
    (h : (merge env src dst v w).1 = none) :
    (merge env src dst v w).2.fs dst = some (.file c m) ∧
      (merge env src dst v w).2.fs src = some (.file c m) := by
  unfold merge at h ⊢
  simp only at h ⊢
  split
  · rename_i hp
    simp only [hp] at h
    exact cp_mirrors env src dst _ c m hsrc hne h
  · rename_i p hp
    simp only [hp] at h
    simp only [rsyncRun, World.record, hsrc] at h ⊢
    split
    · rename_i msg hr
      simp [hr] at h
    · rename_i msg left hr
      simp [hr] at h
    · simp only [World.withFS]
      exact ⟨FS.set_same _ _ _, by rw [FS.set_other _ _ _ _ hne, hsrc]⟩

/-- `importItem` when the destination is a file as long as `item.Size`: nothing
happens. -/
theorem importItem_settled (env : Env) (tt : TransferTask) (w : World) (ci : CameraItem)
    (dp : String) (c : Bytes) (m : Time)
    (hdp : datePath env w.fs ci.Path tt.dateFormat = .ok dp)
    (hd : w.fs (filepathJoin [tt.dstDir, dp, filepathBase ci.Path]) = some (.file c m))
    (hsize : ci.Size = (c.length : Int)) :
    (importItem env tt w ci).1 = none ∧
    (importItem env tt w ci).2.2.fs = w.fs ∧
    (importItem env tt w ci).2.2.calls = w.calls ++ [.importItem ci] ∧
    (importItem env tt w ci).2.1 = tt := by
  have hst : osStat w.fs (filepathJoin [tt.dstDir, dp, filepathBase ci.Path]) =
      .ok ⟨filepathBase (filepathJoin [tt.dstDir, dp, filepathBase ci.Path]), c.length, m,
        false⟩ := by
    simp [osStat, hd]
  rw [importItem_same env tt w ci dp _ hdp hst hsize]
  refine ⟨rfl, ?_, ?_, rfl⟩
  · simp only
    split <;> rfl
  · simp only
    split <;> rfl

/-- C6 as amended: for every task, and every item whose source is a regular file
of exactly `item.Size` bytes, if a first `importItem` returns no error then a
second `importItem` of the same item in the resulting state returns no error,
records no call of `cp` or `merge`, and leaves the whole file system, the
destination included, as the first call left it; and when the destination did
not exist before the first call, the second call leaves all four counters
unchanged. -/
theorem importItem_twice (env : Env) (tt : TransferTask) (w : World) (ci : CameraItem)
    (c : Bytes) (m : Time) (dp : String)
    (hsrc : w.fs ci.Path = some (.file c m)) (hsize : ci.Size = (c.length : Int))
    (hdp : datePath env w.fs ci.Path tt.dateFormat = .ok dp)
    (h1 : (importItem env tt w ci).1 = none) :
    (importItem env (importItem env tt w ci).2.1 (importItem env tt w ci).2.2 ci).1 = none ∧
    (importItem env (importItem env tt w ci).2.1 (importItem env tt w ci).2.2 ci).2.2.fs =
      (importItem env tt w ci).2.2.fs ∧
    (importItem env (importItem env tt w ci).2.1 (importItem env tt w ci).2.2 ci).2.2.calls =
      (importItem env tt w ci).2.2.calls ++ [.importItem ci] ∧
    (w.fs (filepathJoin [tt.dstDir, dp, filepathBase ci.Path]) = none →
      (importItem env (importItem env tt w ci).2.1 (importItem env tt w ci).2.2 ci).2.1.statistics
        = (importItem env tt w ci).2.1.statistics) := by
  -- the second call, once the destination mirrors the source
  have settle : ∀ (tt1 : TransferTask) (w1 : World),
      tt1.dstDir = tt.dstDir → tt1.dateFormat = tt.dateFormat →
      w1.fs ci.Path = some (.file c m) →
      w1.fs (filepathJoin [tt.dstDir, dp, filepathBase ci.Path]) = some (.file c m) →
      (importItem env tt1 w1 ci).1 = none ∧ (importItem env tt1 w1 ci).2.2.fs = w1.fs ∧
      (importItem env tt1 w1 ci).2.2.calls = w1.calls ++ [.importItem ci] ∧
      (importItem env tt1 w1 ci).2.1 = tt1 := by
    intro tt1 w1 hd hf hs1 hd1
    have hdp1 : datePath env w1.fs ci.Path tt1.dateFormat = .ok dp := by
      rw [hf, datePath_congr env w.fs w1.fs ci.Path tt.dateFormat (by rw [hs1, hsrc]), hdp]
    rw [← hd] at hd1
    exact importItem_settled env tt1 w1 ci dp c m hdp1 hd1 hsize
  cases hst : osStat w.fs (filepathJoin [tt.dstDir, dp, filepathBase ci.Path]) with
  | error e =>
    by_cases hn : e.notExist = true
    · have hnone := osStat_notExist _ _ e hst hn
      have hne : ci.Path ≠ filepathJoin [tt.dstDir, dp, filepathBase ci.Path] := by
        intro e1
        rw [← e1, hsrc] at hnone
        cases hnone
      rw [importItem_absent env tt w ci dp hdp hnone] at h1 ⊢
      generalize hw1 : announced tt w ci _ = w1 at h1 ⊢
      have hfs : w1.fs ci.Path = some (.file c m) := by
        rw [← hw1, announced_fs]; exact hsrc
      have hm := cp_mirrors env ci.Path _ w1 c m hfs hne
      generalize cp env ci.Path _ w1 = r at h1 hm
      obtain ⟨e1, w2⟩ := r
      cases e1 with
      | some e1 => cases h1
      | none =>
        obtain ⟨hm1, hm2⟩ := hm rfl
        have := settle tt.incCreated w2 rfl rfl hm2 hm1
        exact ⟨this.1, this.2.1, this.2.2.1, fun _ => by rw [this.2.2.2]⟩
    · have h : importItem env tt w ci =
          (some ("Cannot stat " ++ filepathJoin [tt.dstDir, dp, filepathBase ci.Path] ++ ": "
            ++ e.msg), tt, w.record (.importItem ci)) := by
        simp only [importItem, World.record, hdp, hst]
        simp [hn]
      rw [h] at h1
      cases h1
  | ok di =>
    have hex : w.fs (filepathJoin [tt.dstDir, dp, filepathBase ci.Path]) ≠ none := by
      intro h0
      obtain ⟨e, he, _⟩ := osStat_none _ _ h0
      rw [he] at hst
      cases hst
    by_cases heq : ci.Size = di.size
    · rw [importItem_same env tt w ci dp di hdp hst heq]
      generalize hw1 : (if tt.superVerbose = true then _ else _ : World) = w1
      have hfs : w1.fs = w.fs := by
        rw [← hw1]; split <;> rfl
      have hdp1 : datePath env w1.fs ci.Path tt.dateFormat = .ok dp := by rw [hfs]; exact hdp
      have hst1 : osStat w1.fs (filepathJoin [tt.dstDir, dp, filepathBase ci.Path]) = .ok di := by
        rw [hfs]; exact hst
      simp only
      rw [importItem_same env tt w1 ci dp di hdp1 hst1 heq]
      refine ⟨rfl, ?_, ?_, fun h0 => absurd h0 hex⟩
      · simp only; split <;> rfl
      · simp only; split <;> rfl
    · have hne : ci.Path ≠ filepathJoin [tt.dstDir, dp, filepathBase ci.Path] := by
        intro e1
        rw [← e1] at hst
        simp only [osStat, hsrc] at hst
        injection hst with hst
        rw [← hst] at heq
        exact heq hsize
      cases hf : tt.force with
      | false =>
        rw [importItem_skip env tt w ci dp di hdp hst heq hf]
        generalize hw1 : announced tt w ci _ = w1
        have hfs : w1.fs = w.fs := by rw [← hw1]; exact announced_fs _ _ _ _
        have hdp1 : datePath env w1.fs ci.Path tt.incSkipped.dateFormat = .ok dp := by
          rw [hfs]; exact hdp
        have hst1 : osStat w1.fs (filepathJoin [tt.incSkipped.dstDir, dp,
            filepathBase ci.Path]) = .ok di := by
          rw [hfs]; exact hst
        simp only
        rw [importItem_skip env tt.incSkipped w1 ci dp di hdp1 hst1 heq hf]
        refine ⟨rfl, ?_, ?_, fun h0 => absurd h0 hex⟩
        · simp only; rw [announced_fs]
        · simp only; rw [announced_calls]
      | true =>
        by_cases hbig : 10485760 < ci.Size
        · rw [importItem_merge env tt w ci dp di hdp hst heq hf hbig] at h1 ⊢
          generalize hw1 : announced tt w ci _ = w1 at h1 ⊢
          have hfs : w1.fs ci.Path = some (.file c m) := by
            rw [← hw1, announced_fs]; exact hsrc
          have hm := merge_mirrors env ci.Path _ tt.verbose w1 c m hfs hne
          generalize merge env ci.Path _ tt.verbose w1 = r at h1 hm
          obtain ⟨e1, w2⟩ := r
          cases e1 with
          | some e1 => cases h1
          | none =>
            obtain ⟨hm1, hm2⟩ := hm rfl
            have := settle tt.incMerged w2 rfl rfl hm2 hm1
            exact ⟨this.1, this.2.1, this.2.2.1, fun _ => by rw [this.2.2.2]⟩
        · rw [importItem_overwrite env tt w ci dp di hdp hst heq hf (by omega)] at h1 ⊢
          generalize hw1 : announced tt w ci _ = w1 at h1 ⊢
          have hfs : w1.fs ci.Path = some (.file c m) := by
            rw [← hw1, announced_fs]; exact hsrc
          have hm := cp_mirrors env ci.Path _ w1 c m hfs hne
          generalize cp env ci.Path _ w1 = r at h1 hm
          obtain ⟨e1, w2⟩ := r
          cases e1 with
          | some e1 => cases h1
          | none =>
            obtain ⟨hm1, hm2⟩ := hm rfl
            have := settle tt.incOverwritten w2 rfl rfl hm2 hm1
            exact ⟨this.1, this.2.1, this.2.2.1, fun _ => by rw [this.2.2.2]⟩

/-- C1 on the sample world: `a.jpg` is created at `/dst/2023-03-05/a.jpg`. -/
theorem importItem_creates_new_witness :
    (importItem sampleEnv sampleTask sampleWorld sampleItem).1 = none ∧
    (importItem sampleEnv sampleTask sampleWorld sampleItem).2.2.fs "/dst/2023-03-05/a.jpg" =
      some (.file [1, 2, 3] 100) ∧
    (importItem sampleEnv sampleTask sampleWorld sampleItem).2.1.statistics.created = 1 :=
  have h := importItem_creates_new sampleEnv sampleTask sampleWorld sampleItem [1, 2, 3] 100
    ⟨.ok 0⟩ 0 rfl rfl rfl (by decide) (by decide)
  ⟨h.1, h.2.1, h.2.2.1⟩

/-- C2 on the sample world with a shorter `a.jpg` at the destination. -/
theorem importItem_skips_without_force_witness :
    (importItem sampleEnv sampleTask staleWorld sampleItem).1 = none ∧
    (importItem sampleEnv sampleTask staleWorld sampleItem).2.2.fs = staleWorld.fs ∧
    (importItem sampleEnv sampleTask staleWorld sampleItem).2.1.statistics.skipped = 1 :=
  have h := importItem_skips_without_force sampleEnv sampleTask staleWorld sampleItem
    "2023-03-05" ⟨"a.jpg", 1, 70, false⟩ rfl rfl (by decide) rfl
  ⟨h.1, h.2.2.1, h.2.2.2.1⟩

/-- The forced branches on the sample world with a shorter `a.jpg` at the
destination, `-f` and an item of exactly 10485760 bytes: the file is overwritten
by `cp`, not merged. -/
theorem importItem_force_threshold_witness :
    (importItem sampleEnv forceTask staleWorld boundaryItem).2.2.calls =
      [.importItem boundaryItem, .cp "/src/a.jpg" "/dst/2023-03-05/a.jpg"] ∧
    (importItem sampleEnv forceTask staleWorld boundaryItem).2.1.statistics.overwritten = 1 ∧
    (importItem sampleEnv forceTask staleWorld boundaryItem).2.2.fs "/dst/2023-03-05/a.jpg" =
      some (.file [1, 2, 3] 100) :=
  have h := (importItem_force_threshold sampleEnv forceTask staleWorld boundaryItem
    "2023-03-05" ⟨"a.jpg", 1, 70, false⟩ rfl rfl (by decide) rfl).2 (by decide)
  ⟨h.1, (h.2 (by decide)).1, (h.2 (by decide)).2.2.2.2.2.2 (by decide)⟩

/-- C4 on the sample world after `a.jpg` was imported. -/
theorem importItem_identical_noop_witness :
    (importItem sampleEnv forceTask importedWorld sampleItem).1 = none ∧
    (importItem sampleEnv forceTask importedWorld sampleItem).2.2.fs = importedWorld.fs ∧
    (importItem sampleEnv forceTask importedWorld sampleItem).2.2.calls =
      [.importItem sampleItem] :=
  have h := importItem_identical_noop sampleEnv forceTask importedWorld sampleItem
    "2023-03-05" ⟨"a.jpg", 3, 100, false⟩ rfl rfl rfl
  ⟨h.1, h.2.2.1, h.2.1⟩

/-- C6 as stated fails for an item whose `Size` is not the length of its file:
the first call creates the destination and the second call adds 1 to `skipped`. -/
theorem importItem_twice_counterexample :
    sampleWorld.fs "/dst/2023-03-05/a.jpg" = none ∧
    (importItem sampleEnv sampleTask sampleWorld linkItem).1 = none ∧
    (importItem sampleEnv sampleTask sampleWorld linkItem).2.1.statistics.created = 1 ∧
    (importItem sampleEnv sampleTask sampleWorld linkItem).2.1.statistics.skipped = 0 ∧
    (importItem sampleEnv (importItem sampleEnv sampleTask sampleWorld linkItem).2.1
      (importItem sampleEnv sampleTask sampleWorld linkItem).2.2 linkItem).2.1.statistics.skipped
        = 1 := by
  decide

/-- C6 as amended, on the sample world: the second import of `a.jpg` changes no
counter. -/
theorem importItem_twice_witness :
    (importItem sampleEnv sampleTask sampleWorld sampleItem).1 = none ∧
    (importItem sampleEnv (importItem sampleEnv sampleTask sampleWorld sampleItem).2.1
      (importItem sampleEnv sampleTask sampleWorld sampleItem).2.2 sampleItem).1 = none ∧
    (importItem sampleEnv (importItem sampleEnv sampleTask sampleWorld sampleItem).2.1
      (importItem sampleEnv sampleTask sampleWorld sampleItem).2.2 sampleItem).2.1.statistics =
        ⟨1, 0, 0, 0⟩ :=
  have h := importItem_twice sampleEnv sampleTask sampleWorld sampleItem [1, 2, 3] 100
    "2023-03-05" rfl rfl rfl (by decide)
  ⟨by decide, h.1, (h.2.2.2 (by decide)).trans (by decide)⟩

/-- C7 as stated fails when the destination already has the size of the item:
`importItem` returns no error and none of the four counters changes. -/
theorem importItem_counters_counterexample :
    (importItem sampleEnv sampleTask importedWorld sampleItem).1 = none ∧
    (importItem sampleEnv sampleTask importedWorld sampleItem).2.1.statistics.created =
      sampleTask.statistics.created ∧
    (importItem sampleEnv sampleTask importedWorld sampleItem).2.1.statistics.overwritten =
      sampleTask.statistics.overwritten ∧
    (importItem sampleEnv sampleTask importedWorld sampleItem).2.1.statistics.skipped =
      sampleTask.statistics.skipped ∧
    (importItem sampleEnv sampleTask importedWorld sampleItem).2.1.statistics.merged =
      sampleTask.statistics.merged := by
  decide

/-- C8 as stated fails: in a walk over `bad.jpg` and then `a.jpg` the error of
`bad.jpg` ends the walk; `a.jpg`, which imports fine on its own, is never passed
to `importItem` and no counter changes. -/
theorem walk_continues_counterexample :
    (walkEntries sampleEnv [badEntry, goodEntry] sampleTask sampleWorld).1 =
      some "/src/bad.jpg: EOF" ∧
    (walkEntries sampleEnv [badEntry, goodEntry] sampleTask sampleWorld).2.2.calls =
      [.importItem ⟨"/src/bad.jpg", 90, 0⟩] ∧
    (walkEntries sampleEnv [badEntry, goodEntry] sampleTask sampleWorld).2.1.statistics =
      ⟨0, 0, 0, 0⟩ ∧
    (walkEntries sampleEnv [badEntry, goodEntry] sampleTask sampleWorld).2.2.fs
      "/dst/2023-03-05/a.jpg" = none ∧
    (walkEntries sampleEnv [goodEntry] sampleTask sampleWorld).2.1.statistics =
      ⟨1, 0, 0, 0⟩ := by
  decide

/-- C8 as amended, on the sample world: the walk over the directory, `bad.jpg`
and `a.jpg` ends at `bad.jpg`. -/
theorem walk_stops_at_unreadable_witness :
    walkEntries sampleEnv ([dirEntry] ++ badEntry :: [goodEntry]) sampleTask sampleWorld =
      (some ("/src/bad.jpg" ++ ": " ++ "EOF"), sampleTask,
        sampleWorld.record (.importItem ⟨"/src/bad.jpg", 90, 0⟩)) :=
  (walk_stops_at_unreadable sampleEnv [dirEntry] [goodEntry] badEntry sampleTask sampleTask
    sampleWorld sampleWorld "EOF" rfl rfl rfl (by decide) rfl).2

/-- C3, where the code departs from the claim: for an item that is its own
destination and whose `Size` (7) differs from the size of the file (3 bytes,
modification time 100), with `force` on and `Size` below the 10 MiB threshold,
`importItem` calls `cp` with the same name as source and destination, returns no
error and adds 1 to `overwritten` alone, but the destination does not have the
bytes and the modification time of the source: `os.Create` has truncated the
file `cp` was about to read, so it is left empty, with the time of the
truncation. -/
theorem importItem_overwrites_itself :
    importedWorld.fs selfItem.Path = some (.file [1, 2, 3] 100) ∧
    datePath sampleEnv importedWorld.fs selfItem.Path selfTask.dateFormat =
      .ok "2023-03-05" ∧
    filepathJoin [selfTask.dstDir, "2023-03-05", filepathBase selfItem.Path] =
      selfItem.Path ∧
    osStat importedWorld.fs selfItem.Path = .ok ⟨"a.jpg", 3, 100, false⟩ ∧
    selfTask.force = true ∧ selfItem.Size ≠ 3 ∧ selfItem.Size ≤ 10485760 ∧
    (importItem sampleEnv selfTask importedWorld selfItem).1 = none ∧
    (importItem sampleEnv selfTask importedWorld selfItem).2.2.calls =
      [.importItem selfItem, .cp "/dst/2023-03-05/a.jpg" "/dst/2023-03-05/a.jpg"] ∧
    (importItem sampleEnv selfTask importedWorld selfItem).2.1.statistics = ⟨0, 1, 0, 0⟩ ∧
    (importItem sampleEnv selfTask importedWorld selfItem).2.2.fs selfItem.Path =
      some (.file [] 1000) ∧
    (importItem sampleEnv selfTask importedWorld selfItem).2.2.fs selfItem.Path ≠
      importedWorld.fs selfItem.Path := by
  refine ⟨by decide, rfl, by decide, rfl, ?_⟩
  decide

/-- C5, where the code departs from the claim: a regular file named `photo.jpeg`
is not passed to `importItem`; `walkPhotoVideos` returns nil and leaves task and
world as they were, because the suffix it tests is `*.jpeg` with the asterisk. A
file named `photo*.jpeg` is passed to `importItem`. The older copy of the
program has the same test, and ignores `clip.mp4` as well. -/
theorem walkPhotoVideos_ignores_jpeg (env : Env) (tt : TransferTask) (w : World)
    (path : String) (size : Int) (mtime : Time) :
    walkPhotoVideos env tt w path ⟨"photo.jpeg", size, mtime, false⟩ none = (none, tt, w) ∧
    walkPhotoVideos env tt w path ⟨"photo*.jpeg", size, mtime, false⟩ none =
      importItem env tt w ⟨path, mtime, size⟩ ∧
    legacyWalkPhotoVideos env tt w path ⟨"photo.jpeg", size, mtime, false⟩ none =
      (none, tt, w) ∧
    legacyWalkPhotoVideos env tt w path ⟨"clip.mp4", size, mtime, false⟩ none =
      (none, tt, w) := by
  have h1 : stringsHasSuffix (stringsToLower "photo.jpeg") ".jpg" = false := by decide
  have h2 : stringsHasSuffix (stringsToLower "photo.jpeg") "*.jpeg" = false := by decide
  have h3 : stringsHasSuffix (stringsToLower "photo.jpeg") ".mov" = false := by decide
  have h4 : stringsHasSuffix (stringsToLower "photo.jpeg") ".mp4" = false := by decide
  have h5 : stringsHasSuffix (stringsToLower "photo*.jpeg") "*.jpeg" = true := by decide
  have h6 : stringsHasSuffix (stringsToLower "clip.mp4") ".jpg" = false := by decide
  have h7 : stringsHasSuffix (stringsToLower "clip.mp4") "*.jpeg" = false := by decide
  have h8 : stringsHasSuffix (stringsToLower "clip.mp4") ".mov" = false := by decide
  refine ⟨?_, ?_, ?_, ?_⟩
  · simp [walkPhotoVideos, h1, h2, h3, h4]
  · simp [walkPhotoVideos, h5]
  · simp [legacyWalkPhotoVideos, h1, h2, h3]
  · simp [legacyWalkPhotoVideos, h6, h7, h8]

/-- C9, where the code departs from the claim: with a destination `/nope` that
does not exist, `Exec` returns no error, walks the source, calls `importItem`
and `cp`, creates `/nope/2023-03-05/a.jpg` and counts 1 created file; both of
its `os.Stat` calls look at `srcDir`. -/
theorem Exec_ignores_destination :
    sampleWorld.fs "/nope" = none ∧
    (Exec sampleEnv noDestTask sampleWorld).1 = none ∧
    (Exec sampleEnv noDestTask sampleWorld).2.2.calls =
      [.importItem sampleItem, .cp "/src/a.jpg" "/nope/2023-03-05/a.jpg"] ∧
    (Exec sampleEnv noDestTask sampleWorld).2.1.statistics = ⟨1, 0, 0, 0⟩ ∧
    (Exec sampleEnv noDestTask sampleWorld).2.2.fs "/nope/2023-03-05/a.jpg" =
      some (.file [1, 2, 3] 100) := by
  decide

/-- C10, where the code departs from the claim: for every combination of flags
`main` sets `superVerbose` from the `-v` flag (and `verbose` from `-v` or
`-vv`). With `-vv` alone `superVerbose` is false and a run over an
already imported file prints only the summary; with `-v` alone `superVerbose` is
true and the run reports the identical file. -/
theorem main_verbosity_flags :
    (∀ flags : Flags, (newTransferTask flags).superVerbose = flags.v ∧
      (newTransferTask flags).verbose = (flags.v || flags.vv)) ∧
    (newTransferTask ⟨false, true, defaultDateFormat, false, false⟩).superVerbose = false ∧
    (newTransferTask ⟨true, false, defaultDateFormat, false, false⟩).superVerbose = true ∧
    (main sampleEnv ⟨false, true, defaultDateFormat, false, false⟩ ["/src", "/dst"]
      importedWorld).2.2.out =
        ["\n0 new files, 0 overwritten, 0 skipped, 0 merged\n"] ∧
    (main sampleEnv ⟨true, false, defaultDateFormat, false, false⟩ ["/src", "/dst"]
      importedWorld).2.2.out =
        ["Already identical /src/a.jpg == /dst/2023-03-05/a.jpg\n",
          "\n0 new files, 0 overwritten, 0 skipped, 0 merged\n"] := by
  refine ⟨fun flags => ⟨rfl, rfl⟩, ?_⟩
  decide

/-- C7 as amended, on the sample world: importing `a.jpg` adds 1 to `created`. -/
theorem importItem_counters_witness :
    (importItem sampleEnv sampleTask sampleWorld sampleItem).2.1.statistics = ⟨1, 0, 0, 0⟩ ∧
    sampleTask.statistics.created ≤
      (importItem sampleEnv sampleTask sampleWorld sampleItem).2.1.statistics.created :=
  ⟨by decide, (importItem_counters sampleEnv sampleTask sampleWorld sampleItem).2.1⟩

end Picadastra
